import Mathlib

/-!
Verification development for the cross-venue arbitrage engine
(`src/arbitrage.py`).  The engine's numeric behaviour is embedded shallowly
over `ℚ` (Python floats modelled as exact rationals), file/ledger state is
passed explicitly, and Python exceptions are modelled with `Except`.
-/

namespace Arbitrage

/-! ## Constants (src/arbitrage.py lines 10-13) -/

/-- Taker fee rate for immediate execution (`TAKER_FEE = 0.001`, 0.10%). -/
def TAKER_FEE : ℚ := 1 / 1000

/-- Maker fee rate (`MAKER_FEE = 0.0`); unused by the engine. -/
def MAKER_FEE : ℚ := 0

/-- Minimum trade amount in USD (`MIN_TRADE_AMOUNT = 5.0`). -/
def MIN_TRADE_AMOUNT : ℚ := 5

/-- Factor used to calculate trade size (`TRADE_SIZE_FACTOR = 500000.0`). -/
def TRADE_SIZE_FACTOR : ℚ := 500000

/-! ## Data model -/

/-- The two exchanges tracked by the ledger (`"mexc"` and `"coinbase"`). -/
inductive Venue
  | mexc
  | coinbase
deriving DecidableEq, Repr

/-- Trade direction recorded by `record_trade_history`. -/
inductive TradeType
  | buy
  | sell
deriving DecidableEq, Repr

/-- One line of a `{symbol}_trade_history.txt` file, as written by
`record_trade_history(symbol, amount, price, trade_type, exchange)`:
`timestamp, trade_type, amount, price, amount * price, exchange`
(the wall-clock timestamp is outside the embedding). -/
structure TradeRecord where
  symbol : String
  amount : ℚ
  price : ℚ
  notional : ℚ
  tradeType : TradeType
  venue : Venue
deriving DecidableEq, Repr

/-- Build the record exactly as `record_trade_history` does:
the fourth column is `amount * price` with the signed amount. -/
def mkRecord (symbol : String) (amount price : ℚ) (t : TradeType) (v : Venue) : TradeRecord :=
  ⟨symbol, amount, price, amount * price, t, v⟩

/-- The mutable ledger of the script: `usd_balance[exchange]` and
`balances[exchange][currency]`.  A currency key that is absent from the
Python dict behaves as `0.0` everywhere the engine reads it
(`balances[ex].get(name, 0.0)`), so holdings are modelled as a total map. -/
@[ext] structure State where
  usd : Venue → ℚ
  bal : Venue → String → ℚ

/-- Pointwise update of a USD balance (`usd_balance[v] = x`). -/
def updUsd (f : Venue → ℚ) (v : Venue) (x : ℚ) : Venue → ℚ :=
  fun w => if w = v then x else f w

/-- Pointwise update of one holding (`balances[v][a] = x`). -/
def updBal (f : Venue → String → ℚ) (v : Venue) (a : String) (x : ℚ) : Venue → String → ℚ :=
  fun w b => if w = v ∧ b = a then x else f w b

/-- Initial ledger written by `read_balances_from_file` when no
`balances.txt` exists: 2000 USD per exchange, all holdings zero. -/
def initState : State :=
  { usd := fun _ => 2000, bal := fun _ _ => 0 }

/-- Python's `crypto.replace("USDT", "")` (line 194), specialised to the
pattern `"USDT"` with empty replacement, on the character list. -/
def stripUSDTChars : List Char → List Char
  | 'U' :: 'S' :: 'D' :: 'T' :: rest => stripUSDTChars rest
  | c :: rest => c :: stripUSDTChars rest
  | [] => []

/-- Symbol-to-currency key used for the `balances` dict. -/
def stripUSDT (s : String) : String :=
  ⟨stripUSDTChars s.data⟩

/-! ## Python builtins used by the numeric code -/

/-- Python's two-argument `max(a, b)`: keep `a`, replace it when `b` is
strictly greater.  (Python's `max` also explains the `NaN` handling in
`calculate_atr`: `nan > x` is `False`, so a `NaN` argument never wins.) -/
def pymax (a b : ℚ) : ℚ :=
  if a < b then b else a

/-- Python's `abs` on a (finite) float. -/
def pyabs (a : ℚ) : ℚ :=
  if a < 0 then -a else a

/-! ## Volatility estimator: `calculate_atr` (lines 152-176) -/

/-- Failure modes of `calculate_atr`: `FileNotFoundError` when no price
history file exists, `ValueError("Not enough data to calculate ATR")`
when fewer than `period + 1` samples exist. -/
inductive AtrError
  | fileNotFound
  | notEnoughData
deriving DecidableEq, Repr

/-- The `tr` column formula of line 173-174 for a non-first row:
`max(price - price, abs(price - prev_close), abs(price - prev_close))`. -/
def true_range (price prev_close : ℚ) : ℚ :=
  pymax (pymax (price - price) (pyabs (price - prev_close))) (pyabs (price - prev_close))

/-- The `tr` values of all rows after the first, where `prev` is the
previous row's price. -/
def trMap (prev : ℚ) : List ℚ → List ℚ
  | [] => []
  | p :: rest => true_range p prev :: trMap p rest

/-- The whole `tr` column.  For the first row `prev_close` is `NaN`, and
Python's `max(0.0, nan, nan)` keeps the first argument, so the first `tr`
value is `price - price = 0`. -/
def trueRanges : List ℚ → List ℚ
  | [] => []
  | p0 :: rest => 0 :: trMap p0 rest

/-- `calculate_atr(symbol, period)` on the price column read from
`{symbol}_price_history.txt`.  Raises `ValueError` when fewer than
`period + 1` rows exist; otherwise returns
`prices['tr'].rolling(window=period).mean().iloc[-1]`, the mean of the
last `period` entries of the `tr` column (the model is used with
`period ≥ 1`, as pandas requires of a rolling window; the script always
passes `period = 14`). -/
def calculate_atr (prices : List ℚ) (period : ℕ) : Except AtrError ℚ :=
  if prices.length < period + 1 then
    .error .notEnoughData
  else
    let tr := trueRanges prices
    .ok ((tr.drop (tr.length - period)).sum / (period : ℚ))

/-! ## Position sizing (lines 203-204) -/

/-- Line 203: `max(MIN_TRADE_AMOUNT / TRADE_SIZE_FACTOR, atr / price)`
where `price` is the MEXC price of the asset. -/
def trade_size_factor (atr price : ℚ) : ℚ :=
  pymax (MIN_TRADE_AMOUNT / TRADE_SIZE_FACTOR) (atr / price)

/-- Line 204: `TRADE_SIZE_FACTOR * trade_size_factor`. -/
def trade_amount_usd (atr price : ℚ) : ℚ :=
  TRADE_SIZE_FACTOR * trade_size_factor atr price

/-- Lines 197-201: the engine calls `calculate_atr(crypto, 14)` and falls
back to `atr = 0` on `ValueError` or `FileNotFoundError`. -/
def atr_or_zero (history : List ℚ) (period : ℕ) : ℚ :=
  match calculate_atr history period with
  | .error _ => 0
  | .ok v => v

/-! ## The hedge engine: `trade_and_hedge` (lines 178-239) -/

/-- Uncaught Python exceptions that `trade_and_hedge` can raise.
`typeError` is `atr / None` at line 203 when the MEXC price fetch
returned `None`; `zeroDivisionError` is `atr / 0.0` at the same line. -/
inductive PyError
  | typeError
  | zeroDivisionError
deriving DecidableEq, Repr

/-- Per-cycle environment of `trade_and_hedge`: the price dicts built at
lines 190-191 (`None` = fetch failed) and the contents of each symbol's
`{symbol}_price_history.txt` at the moment `calculate_atr` reads it
(both venues' fetches append to the same file before the loop body runs). -/
structure CycleCtx where
  pricesMexc : String → Option ℚ
  pricesCoinbase : String → Option ℚ
  history : String → List ℚ

/-- The loop body of `trade_and_hedge` for one `crypto` (lines 194-237),
with the recovered ATR value already in hand (lines 197-201 are
`atr_or_zero`; see `processCrypto`).  Python evaluates line 203
(`atr / prices_mexc[crypto]`) before the availability guard of line 209,
so a missing MEXC price raises `TypeError` and a `0.0` MEXC price raises
`ZeroDivisionError`; any other falsy guard case just skips the asset. -/
def processCryptoAtr (ctx : CycleCtx) (crypto : String) (atr : ℚ) (s : State)
    (recs : List TradeRecord) : Except PyError (State × List TradeRecord) :=
  let crypto_name := stripUSDT crypto
  match ctx.pricesMexc crypto with
  | none => .error .typeError
  | some pM =>
    if pM = 0 then .error .zeroDivisionError
    else
      let trade_amount := trade_amount_usd atr pM
      if trade_amount < MIN_TRADE_AMOUNT then .ok (s, recs)
      else
        match ctx.pricesCoinbase crypto with
        | none => .ok (s, recs)
        | some pC =>
          if pC = 0 then .ok (s, recs)
          else if pM < pC then
            -- Buy on MEXC, sell on Coinbase (lines 210-223)
            if s.usd Venue.mexc ≥ trade_amount then
              let crypto_amount := trade_amount / pM
              let fee := trade_amount * TAKER_FEE
              let net := trade_amount - fee
              let s1 : State :=
                { usd := updUsd s.usd Venue.mexc (s.usd Venue.mexc - net),
                  bal := updBal s.bal Venue.mexc crypto_name
                          (s.bal Venue.mexc crypto_name + crypto_amount) }
              let r1 := mkRecord crypto crypto_amount pM TradeType.buy Venue.mexc
              let s2 : State :=
                { s1 with usd := updUsd s1.usd Venue.coinbase
                            (s1.usd Venue.coinbase + crypto_amount * pC) }
              let r2 := mkRecord crypto (-crypto_amount) pC TradeType.sell Venue.coinbase
              .ok (s2, recs ++ [r1, r2])
            else .ok (s, recs)
          else
            -- Buy on Coinbase, sell on MEXC (lines 224-237)
            if s.usd Venue.coinbase ≥ trade_amount then
              let crypto_amount := trade_amount / pC
              let fee := trade_amount * TAKER_FEE
              let net := trade_amount - fee
              let s1 : State :=
                { usd := updUsd s.usd Venue.coinbase (s.usd Venue.coinbase - net),
                  bal := updBal s.bal Venue.coinbase crypto_name
                          (s.bal Venue.coinbase crypto_name + crypto_amount) }
              let r1 := mkRecord crypto crypto_amount pC TradeType.buy Venue.coinbase
              let s2 : State :=
                { s1 with usd := updUsd s1.usd Venue.mexc
                            (s1.usd Venue.mexc + crypto_amount * pM) }
              let r2 := mkRecord crypto (-crypto_amount) pM TradeType.sell Venue.mexc
              .ok (s2, recs ++ [r1, r2])
            else .ok (s, recs)

/-- One full loop iteration for `crypto`, including the ATR computation
with its fallback (lines 194-237).  The unused read of line 195
(`last_price = balances["mexc"].get(...)`) has no effect and is omitted. -/
def processCrypto (ctx : CycleCtx) (crypto : String) (s : State)
    (recs : List TradeRecord) : Except PyError (State × List TradeRecord) :=
  processCryptoAtr ctx crypto (atr_or_zero (ctx.history crypto) 14) s recs

/-- The `for crypto in cryptos` loop of `trade_and_hedge` (lines 193-239).
An uncaught exception in one iteration aborts the whole call (there is no
try/except around the loop body). -/
def trade_and_hedge (ctx : CycleCtx) :
    List String → State → List TradeRecord → Except PyError (State × List TradeRecord)
  | [], s, recs => .ok (s, recs)
  | c :: rest, s, recs =>
    match processCrypto ctx c s recs with
    | .error e => .error e
    | .ok (s', recs') => trade_and_hedge ctx rest s' recs'

/-- Input of one cycle of the `while True` driver loop of `main`. -/
structure CycleInput where
  ctx : CycleCtx
  cryptos : List String

/-- Chained `trade_and_hedge` cycles, as `main`'s loop performs them
(trade records go to append-only files and do not feed back). -/
def runCycles : List CycleInput → State → Except PyError State
  | [], s => .ok s
  | i :: rest, s =>
    match trade_and_hedge i.ctx i.cryptos s [] with
    | .error e => .error e
    | .ok (s', _) => runCycles rest s'

/-! ## Derived notions used to state the claims -/

/-- The venue the engine buys on: MEXC exactly when `pM < pC`
(line 210's comparison); at equal prices the `else` branch buys on
Coinbase. -/
def fundingVenue (pM pC : ℚ) : Venue :=
  if pM < pC then Venue.mexc else Venue.coinbase

/-- The venue the engine sells on. -/
def counterVenue (pM pC : ℚ) : Venue :=
  if pM < pC then Venue.coinbase else Venue.mexc

/-- Price quoted on the funding (buying) venue. -/
def fundingPrice (pM pC : ℚ) : ℚ :=
  if pM < pC then pM else pC

/-- Price quoted on the counter (selling) venue. -/
def counterPrice (pM pC : ℚ) : ℚ :=
  if pM < pC then pC else pM

/-- Resulting ledger of a loop-body outcome (`d` when it raised). -/
def stateOf (d : State) : Except PyError (State × List TradeRecord) → State
  | .ok (s, _) => s
  | .error _ => d

/-- Trade records of a loop-body outcome (`[]` when it raised). -/
def recsOf : Except PyError (State × List TradeRecord) → List TradeRecord
  | .ok (_, r) => r
  | .error _ => []

/-- Whether the loop body completed without an uncaught exception. -/
def isOk : Except PyError (State × List TradeRecord) → Bool
  | .ok _ => true
  | .error _ => false

/-- Every amount in the ledger is non-negative. -/
def NonnegState (s : State) : Prop :=
  (∀ v, 0 ≤ s.usd v) ∧ (∀ v a, 0 ≤ s.bal v a)

/-- Every price a cycle's feeds actually quote is strictly positive. -/
def posPricesCtx (ctx : CycleCtx) : Prop :=
  (∀ c p, ctx.pricesMexc c = some p → 0 < p) ∧
  (∀ c p, ctx.pricesCoinbase c = some p → 0 < p)

/-! ## Specification-side definitions (claim C5's wording) -/

/-- Modelled from the spec: the absolute differences between consecutive
sample prices, oldest first. -/
def priceDeltas : List ℚ → List ℚ
  | p0 :: p1 :: rest => |p1 - p0| :: priceDeltas (p1 :: rest)
  | _ => []

/-- Modelled from the spec: the arithmetic mean (simple moving average)
of the `n` most recent entries of `l`. -/
def recentMean (l : List ℚ) (n : ℕ) : ℚ :=
  (l.drop (l.length - n)).sum / (n : ℚ)

/-! ## Concrete inputs used by witnesses and counterexamples -/

/-- Fifteen price samples climbing by `0.2` per tick (so the 14 most
recent absolute deltas average to `0.2`). -/
def histA : List ℚ :=
  [100, 100.2, 100.4, 100.6, 100.8, 101, 101.2, 101.4, 101.6, 101.8,
   102, 102.2, 102.4, 102.6, 102.8]

/-- Scenario A environment: MEXC quotes 100, Coinbase quotes 110, and the
history gives ATR `0.2`, hence notional `500000 * (0.2/100) = 1000`. -/
def ctxA : CycleCtx :=
  { pricesMexc := fun _ => some 100
    pricesCoinbase := fun _ => some 110
    history := fun _ => histA }

/-- Both venues quote exactly 100; no history. -/
def ctxEq : CycleCtx :=
  { pricesMexc := fun _ => some 100
    pricesCoinbase := fun _ => some 100
    history := fun _ => [] }

/-- The MEXC price fetch failed (returned `None`) for `"XTZUSDT"` but
succeeded for `"DOTUSDT"`; Coinbase quotes 110 for everything. -/
def ctxC4 : CycleCtx :=
  { pricesMexc := fun c => if c = "DOTUSDT" then some 100 else none
    pricesCoinbase := fun _ => some 110
    history := fun _ => [] }

/-- MEXC quotes 110, Coinbase quotes 100 (funding venue = Coinbase);
no history, so the notional is exactly `MIN_TRADE_AMOUNT = 5`. -/
def ctxB : CycleCtx :=
  { pricesMexc := fun _ => some 110
    pricesCoinbase := fun _ => some 100
    history := fun _ => [] }

/-- A ledger whose Coinbase cash is exactly 5 (the minimum notional). -/
def stateEq5 : State :=
  { usd := fun v => match v with | Venue.mexc => 2000 | Venue.coinbase => 5
    bal := fun _ _ => 0 }

/-- A ledger whose Coinbase cash is 4, strictly below the notional 5. -/
def stateLt5 : State :=
  { usd := fun v => match v with | Venue.mexc => 2000 | Venue.coinbase => 4
    bal := fun _ _ => 0 }

/-! ## Basic lemmas -/

lemma pymax_eq_max (a b : ℚ) : pymax a b = max a b := by
  unfold pymax
  rcases lt_or_ge a b with h | h
  · rw [if_pos h, max_eq_right h.le]
  · rw [if_neg (not_lt.mpr h), max_eq_left h]

lemma pyabs_eq_abs (a : ℚ) : pyabs a = |a| := by
  unfold pyabs
  rcases lt_or_ge a 0 with h | h
  · rw [if_pos h, abs_of_neg h]
  · rw [if_neg (not_lt.mpr h), abs_of_nonneg h]

lemma true_range_eq_abs (price prev_close : ℚ) : true_range price prev_close = |price - prev_close| := by
  unfold true_range
  rw [pymax_eq_max, pymax_eq_max, pyabs_eq_abs, sub_self,
    max_eq_right (abs_nonneg (price - prev_close)), max_self]

lemma min_le_trade_amount (atr p : ℚ) : MIN_TRADE_AMOUNT ≤ trade_amount_usd atr p := by
  unfold trade_amount_usd trade_size_factor
  rw [pymax_eq_max]
  calc MIN_TRADE_AMOUNT
      = TRADE_SIZE_FACTOR * (MIN_TRADE_AMOUNT / TRADE_SIZE_FACTOR) := by
        norm_num [MIN_TRADE_AMOUNT, TRADE_SIZE_FACTOR]
    _ ≤ TRADE_SIZE_FACTOR * max (MIN_TRADE_AMOUNT / TRADE_SIZE_FACTOR) (atr / p) :=
        mul_le_mul_of_nonneg_left (le_max_left _ _) (by norm_num [TRADE_SIZE_FACTOR])

lemma trade_amount_nonneg (atr p : ℚ) : 0 ≤ trade_amount_usd atr p :=
  le_trans (by norm_num [MIN_TRADE_AMOUNT]) (min_le_trade_amount atr p)

lemma trade_amount_not_lt_min (atr p : ℚ) :
    ¬ trade_amount_usd atr p < MIN_TRADE_AMOUNT :=
  not_lt.mpr (min_le_trade_amount atr p)

lemma fundingVenue_ne_counterVenue (pM pC : ℚ) :
    fundingVenue pM pC ≠ counterVenue pM pC := by
  unfold fundingVenue counterVenue
  rcases lt_or_ge pM pC with h | h
  · rw [if_pos h, if_pos h]; decide
  · rw [if_neg (not_lt.mpr h), if_neg (not_lt.mpr h)]; decide

lemma fundingPrice_le_counterPrice (pM pC : ℚ) :
    fundingPrice pM pC ≤ counterPrice pM pC := by
  unfold fundingPrice counterPrice
  rcases lt_or_ge pM pC with h | h
  · rw [if_pos h, if_pos h]; exact h.le
  · rw [if_neg (not_lt.mpr h), if_neg (not_lt.mpr h)]; exact h

lemma fundingPrice_pos (pM pC : ℚ) (hpM : 0 < pM) (hpC : 0 < pC) :
    0 < fundingPrice pM pC := by
  unfold fundingPrice
  split
  · exact hpM
  · exact hpC

lemma counterPrice_pos (pM pC : ℚ) (hpM : 0 < pM) (hpC : 0 < pC) :
    0 < counterPrice pM pC := by
  unfold counterPrice
  split
  · exact hpC
  · exact hpM

/-! ## Characterisation of one loop iteration -/

/-- When both prices are quoted, both are positive, and the funding venue
has at least the computed notional, the iteration executes the hedge and
its effect on the ledger and the trade log is exactly the one of
lines 210-237, described through the funding/counter abstraction. -/
lemma processCryptoAtr_exec (ctx : CycleCtx) (c : String) (atr : ℚ) (s : State)
    (recs : List TradeRecord) (pM pC : ℚ)
    (hM : ctx.pricesMexc c = some pM) (hC : ctx.pricesCoinbase c = some pC)
    (hpM : 0 < pM) (hpC : 0 < pC)
    (hcash : trade_amount_usd atr pM ≤ s.usd (fundingVenue pM pC)) :
    processCryptoAtr ctx c atr s recs =
      .ok
        ({ usd := updUsd
             (updUsd s.usd (fundingVenue pM pC)
               (s.usd (fundingVenue pM pC) -
                 (trade_amount_usd atr pM - trade_amount_usd atr pM * TAKER_FEE)))
             (counterVenue pM pC)
             (s.usd (counterVenue pM pC) +
               trade_amount_usd atr pM / fundingPrice pM pC * counterPrice pM pC),
           bal := updBal s.bal (fundingVenue pM pC) (stripUSDT c)
             (s.bal (fundingVenue pM pC) (stripUSDT c) +
               trade_amount_usd atr pM / fundingPrice pM pC) },
         recs ++
           [mkRecord c (trade_amount_usd atr pM / fundingPrice pM pC)
              (fundingPrice pM pC) TradeType.buy (fundingVenue pM pC),
            mkRecord c (-(trade_amount_usd atr pM / fundingPrice pM pC))
              (counterPrice pM pC) TradeType.sell (counterVenue pM pC)]) := by
  by_cases hlt : pM < pC
  · simp only [fundingVenue, counterVenue, fundingPrice, counterPrice, if_pos hlt] at hcash ⊢
    simp only [processCryptoAtr, hM, hC]
    rw [if_neg hpM.ne', if_neg (trade_amount_not_lt_min atr pM), if_neg hpC.ne',
      if_pos hlt, if_pos hcash]
    simp only [Except.ok.injEq, Prod.mk.injEq]
    refine ⟨State.ext ?_ ?_, trivial⟩
    · funext w
      cases w <;> simp [updUsd]
    · funext w b
      simp [updBal]
  · simp only [fundingVenue, counterVenue, fundingPrice, counterPrice, if_neg hlt] at hcash ⊢
    simp only [processCryptoAtr, hM, hC]
    rw [if_neg hpM.ne', if_neg (trade_amount_not_lt_min atr pM), if_neg hpC.ne',
      if_neg hlt, if_pos hcash]
    simp only [Except.ok.injEq, Prod.mk.injEq]
    refine ⟨State.ext ?_ ?_, trivial⟩
    · funext w
      cases w <;> simp [updUsd]
    · funext w b
      simp [updBal]

/-- When the funding venue's cash is strictly below the computed notional
the iteration leaves the ledger untouched and emits no trade record. -/
lemma processCryptoAtr_shortfall (ctx : CycleCtx) (c : String) (atr : ℚ) (s : State)
    (recs : List TradeRecord) (pM pC : ℚ)
    (hM : ctx.pricesMexc c = some pM) (hC : ctx.pricesCoinbase c = some pC)
    (hpM : 0 < pM) (hpC : 0 < pC)
    (hlow : s.usd (fundingVenue pM pC) < trade_amount_usd atr pM) :
    processCryptoAtr ctx c atr s recs = .ok (s, recs) := by
  by_cases hlt : pM < pC
  · simp only [fundingVenue, if_pos hlt] at hlow
    simp only [processCryptoAtr, hM, hC]
    rw [if_neg hpM.ne', if_neg (trade_amount_not_lt_min atr pM), if_neg hpC.ne',
      if_pos hlt, if_neg (not_le.mpr hlow)]
  · simp only [fundingVenue, if_neg hlt] at hlow
    simp only [processCryptoAtr, hM, hC]
    rw [if_neg hpM.ne', if_neg (trade_amount_not_lt_min atr pM), if_neg hpC.ne',
      if_neg hlt, if_neg (not_le.mpr hlow)]

/-! ## Preservation of non-negativity -/

/-- When the Coinbase price is missing the guard of line 209 is falsy and
the iteration skips the asset. -/
lemma processCryptoAtr_noCb (ctx : CycleCtx) (c : String) (atr : ℚ) (s : State)
    (recs : List TradeRecord) (pM : ℚ)
    (hM : ctx.pricesMexc c = some pM) (hpM : pM ≠ 0)
    (hCx : ctx.pricesCoinbase c = none) :
    processCryptoAtr ctx c atr s recs = .ok (s, recs) := by
  simp only [processCryptoAtr, hM, hCx]
  rw [if_neg hpM, if_neg (trade_amount_not_lt_min atr pM)]

/-- One loop iteration keeps every ledger amount non-negative, provided
every price that was actually quoted is strictly positive. -/
lemma processCryptoAtr_nonneg (ctx : CycleCtx) (c : String) (atr : ℚ) (s : State)
    (recs : List TradeRecord)
    (hM : ∀ p, ctx.pricesMexc c = some p → 0 < p)
    (hC : ∀ p, ctx.pricesCoinbase c = some p → 0 < p)
    (hs : NonnegState s) :
    ∀ s' recs', processCryptoAtr ctx c atr s recs = .ok (s', recs') → NonnegState s' := by
  intro s' recs' h
  have hN0 : ∀ pM : ℚ, (0:ℚ) ≤ trade_amount_usd atr pM := fun pM => trade_amount_nonneg atr pM
  rcases hMx : ctx.pricesMexc c with _ | pM
  · simp only [processCryptoAtr, hMx] at h
    exact Except.noConfusion h
  · have hpM : 0 < pM := hM pM hMx
    rcases hCx : ctx.pricesCoinbase c with _ | pC
    · rw [processCryptoAtr_noCb ctx c atr s recs pM hMx hpM.ne' hCx] at h
      simp only [Except.ok.injEq, Prod.mk.injEq] at h
      rw [← h.1]; exact hs
    · have hpC : 0 < pC := hC pC hCx
      rcases le_or_lt (trade_amount_usd atr pM) (s.usd (fundingVenue pM pC)) with hcash | hlow
      · rw [processCryptoAtr_exec ctx c atr s recs pM pC hMx hCx hpM hpC hcash] at h
        simp only [Except.ok.injEq, Prod.mk.injEq] at h
        rw [← h.1]
        have hfp : 0 < fundingPrice pM pC := fundingPrice_pos pM pC hpM hpC
        have hcp : 0 < counterPrice pM pC := counterPrice_pos pM pC hpM hpC
        have hamt : 0 ≤ trade_amount_usd atr pM / fundingPrice pM pC :=
          div_nonneg (hN0 pM) hfp.le
        have hfee : 0 ≤ trade_amount_usd atr pM * TAKER_FEE :=
          mul_nonneg (hN0 pM) (by norm_num [TAKER_FEE])
        constructor
        · intro v
          simp only [updUsd]
          split
          · exact add_nonneg (hs.1 _) (mul_nonneg hamt hcp.le)
          · split
            · linarith [hcash, hfee]
            · exact hs.1 v
        · intro v a
          simp only [updBal]
          split
          · exact add_nonneg (hs.2 _ _) hamt
          · exact hs.2 v a
      · rw [processCryptoAtr_shortfall ctx c atr s recs pM pC hMx hCx hpM hpC hlow] at h
        simp only [Except.ok.injEq, Prod.mk.injEq] at h
        rw [← h.1]; exact hs

/-- `processCrypto` preserves non-negativity of the ledger. -/
lemma processCrypto_nonneg (ctx : CycleCtx) (c : String) (s : State)
    (recs : List TradeRecord) (hpos : posPricesCtx ctx) (hs : NonnegState s) :
    ∀ s' recs', processCrypto ctx c s recs = .ok (s', recs') → NonnegState s' :=
  processCryptoAtr_nonneg ctx c (atr_or_zero (ctx.history c) 14) s recs
    (fun p => hpos.1 c p) (fun p => hpos.2 c p) hs

/-- The whole per-cycle loop preserves non-negativity of the ledger. -/
lemma trade_and_hedge_nonneg (ctx : CycleCtx) (hpos : posPricesCtx ctx) :
    ∀ (cs : List String) (s : State) (recs : List TradeRecord) (s' : State)
      (recs' : List TradeRecord), NonnegState s →
      trade_and_hedge ctx cs s recs = .ok (s', recs') → NonnegState s'
  | [], s, recs, s', recs', hs, h => by
    simp only [trade_and_hedge, Except.ok.injEq, Prod.mk.injEq] at h
    rw [← h.1]; exact hs
  | c :: rest, s, recs, s', recs', hs, h => by
    rw [trade_and_hedge] at h
    rcases h1 : processCrypto ctx c s recs with e | ⟨s1, recs1⟩
    · rw [h1] at h; exact Except.noConfusion h
    · rw [h1] at h
      exact trade_and_hedge_nonneg ctx hpos rest s1 recs1 s' recs'
        (processCrypto_nonneg ctx c s recs hpos hs s1 recs1 h1) h

/-- Any sequence of cycles started in a non-negative ledger that completes
without an uncaught exception ends in a non-negative ledger. -/
lemma runCycles_nonneg :
    ∀ (inputs : List CycleInput) (s : State) (s' : State),
      (∀ i ∈ inputs, posPricesCtx i.ctx) → NonnegState s →
      runCycles inputs s = .ok s' → NonnegState s'
  | [], s, s', _, hs, h => by
    simp only [runCycles, Except.ok.injEq] at h
    rw [← h]; exact hs
  | i :: rest, s, s', hpos, hs, h => by
    rw [runCycles] at h
    rcases h1 : trade_and_hedge i.ctx i.cryptos s [] with e | ⟨s1, recs1⟩
    · rw [h1] at h; exact Except.noConfusion h
    · rw [h1] at h
      exact runCycles_nonneg rest s1 s' (fun j hj => hpos j (List.mem_cons_of_mem i hj))
        (trade_and_hedge_nonneg i.ctx (hpos i (List.mem_cons_self i rest)) i.cryptos s [] s1
          recs1 hs h1) h

/-! ## Structure of the true-range column (claim C5) -/

lemma trMap_eq_priceDeltas (l : List ℚ) : ∀ prev, trMap prev l = priceDeltas (prev :: l) := by
  induction l with
  | nil => intro prev; simp [trMap, priceDeltas]
  | cons p rest ih =>
    intro prev
    rw [trMap, priceDeltas, true_range_eq_abs, ih p]

lemma trMap_length (l : List ℚ) : ∀ prev, (trMap prev l).length = l.length := by
  induction l with
  | nil => intro prev; rfl
  | cons p rest ih => intro prev; rw [trMap, List.length_cons, List.length_cons, ih p]

/-! ## Claims -/

/-- C5: with at least `period + 1` samples, `calculate_atr` returns the
arithmetic mean (simple moving average) of the `period` most recent
absolute differences between consecutive sample prices; with fewer
samples it fails with the insufficient-history error.  (The function is a
pure read of the history file; the embedding has no mutation to speak
of.) -/
theorem C5_trueRangeAverage (prices : List ℚ) (period : ℕ) (hper : 1 ≤ period) :
    (period + 1 ≤ prices.length →
      calculate_atr prices period = .ok (recentMean (priceDeltas prices) period)) ∧
    (prices.length < period + 1 →
      calculate_atr prices period = .error AtrError.notEnoughData) := by
  constructor
  · intro hlen
    rcases prices with _ | ⟨p0, rest⟩
    · simp at hlen
    · have hple : period ≤ rest.length := by
        simp only [List.length_cons] at hlen; omega
      unfold calculate_atr
      rw [if_neg (not_lt.mpr hlen)]
      simp only [trueRanges]
      unfold recentMean
      rw [show priceDeltas (p0 :: rest) = trMap p0 rest from (trMap_eq_priceDeltas rest p0).symm]
      rw [show (0 :: trMap p0 rest).length - period = (trMap p0 rest).length - period + 1 by
        rw [List.length_cons, trMap_length rest p0]; omega]
      rw [List.drop_succ_cons]
  · intro hlen
    unfold calculate_atr
    rw [if_pos hlen]

/-- Witness for C5 at a concrete two-sample history and period 1. -/
theorem C5_witness :
    1 ≤ 1 ∧ (1 + 1 ≤ ([1, 3] : List ℚ).length) ∧
      calculate_atr [1, 3] 1 = .ok (recentMean (priceDeltas [1, 3]) 1) :=
  ⟨by decide, by decide, (C5_trueRangeAverage [1, 3] 1 (by decide)).1 (by decide)⟩

/-- C6: the computed notional is `TRADE_SIZE_FACTOR` times the maximum of
`MIN_TRADE_AMOUNT / TRADE_SIZE_FACTOR` and `volatility / price`, and at
zero volatility it equals `MIN_TRADE_AMOUNT` exactly, whatever the
(positive) reference price. -/
theorem C6_sizing_floor (v p : ℚ) (hv : 0 ≤ v) (hp : 0 < p) :
    trade_amount_usd v p =
      TRADE_SIZE_FACTOR * max (MIN_TRADE_AMOUNT / TRADE_SIZE_FACTOR) (v / p) ∧
    trade_amount_usd 0 p = MIN_TRADE_AMOUNT := by
  constructor
  · unfold trade_amount_usd trade_size_factor
    rw [pymax_eq_max]
  · unfold trade_amount_usd trade_size_factor
    rw [pymax_eq_max, zero_div,
      max_eq_left (by norm_num [MIN_TRADE_AMOUNT, TRADE_SIZE_FACTOR])]
    norm_num [MIN_TRADE_AMOUNT, TRADE_SIZE_FACTOR]

/-- Witness for C6 at volatility 0 and price 100. -/
theorem C6_witness :
    (0:ℚ) ≤ 0 ∧ (0:ℚ) < 100 ∧ trade_amount_usd 0 100 = MIN_TRADE_AMOUNT :=
  ⟨le_refl 0, by decide, (C6_sizing_floor 0 100 (le_refl 0) (by decide)).2⟩

/-- C2: an executed hedge charges the fee exactly `N * TAKER_FEE`, once,
only on the funding leg: funding cash drops by `N - N * TAKER_FEE`, the
funding holding grows by `N / fundingPrice`, counter cash grows by
`(N / fundingPrice) * counterPrice`, and exactly two trade records are
appended (a buy on the funding venue, a sell on the counter venue). -/
theorem C2_hedge_effect (ctx : CycleCtx) (c : String) (s : State)
    (recs : List TradeRecord) (pM pC N : ℚ)
    (hM : ctx.pricesMexc c = some pM) (hC : ctx.pricesCoinbase c = some pC)
    (hpM : 0 < pM) (hpC : 0 < pC)
    (hN : N = trade_amount_usd (atr_or_zero (ctx.history c) 14) pM)
    (hcash : N ≤ s.usd (fundingVenue pM pC)) :
    isOk (processCrypto ctx c s recs) = true ∧
    (stateOf s (processCrypto ctx c s recs)).usd (fundingVenue pM pC)
        = s.usd (fundingVenue pM pC) - (N - N * TAKER_FEE) ∧
    (stateOf s (processCrypto ctx c s recs)).bal (fundingVenue pM pC) (stripUSDT c)
        = s.bal (fundingVenue pM pC) (stripUSDT c) + N / fundingPrice pM pC ∧
    (stateOf s (processCrypto ctx c s recs)).usd (counterVenue pM pC)
        = s.usd (counterVenue pM pC) + N / fundingPrice pM pC * counterPrice pM pC ∧
    recsOf (processCrypto ctx c s recs)
        = recs ++ [mkRecord c (N / fundingPrice pM pC) (fundingPrice pM pC)
                     TradeType.buy (fundingVenue pM pC),
                   mkRecord c (-(N / fundingPrice pM pC)) (counterPrice pM pC)
                     TradeType.sell (counterVenue pM pC)] := by
  subst hN
  unfold processCrypto
  rw [processCryptoAtr_exec ctx c (atr_or_zero (ctx.history c) 14) s recs pM pC hM hC hpM hpC
    hcash]
  have hne := fundingVenue_ne_counterVenue pM pC
  refine ⟨rfl, ?_, ?_, ?_, rfl⟩
  · simp [stateOf, updUsd, hne]
  · simp [stateOf, updBal]
  · simp [stateOf, updUsd]

/-- Witness for C2: Scenario A (MEXC 100, Coinbase 110, ATR 0.2 hence
notional 1000): funding cash 2000 → 1001 (a decrease of 999), funding
holding of XTZ 0 → 10, counter cash 2000 → 3100 (an increase of 1100),
and exactly the buy/sell pair of records. -/
theorem C2_witness :
    (stateOf initState (processCrypto ctxA "XTZUSDT" initState [])).usd Venue.mexc = 1001 ∧
    (stateOf initState (processCrypto ctxA "XTZUSDT" initState [])).bal Venue.mexc "XTZ" = 10 ∧
    (stateOf initState (processCrypto ctxA "XTZUSDT" initState [])).usd Venue.coinbase = 3100 ∧
    recsOf (processCrypto ctxA "XTZUSDT" initState [])
      = [mkRecord "XTZUSDT" 10 100 TradeType.buy Venue.mexc,
         mkRecord "XTZUSDT" (-10) 110 TradeType.sell Venue.coinbase] := by
  have h := C2_hedge_effect ctxA "XTZUSDT" initState [] 100 110 1000 rfl rfl
    (by norm_num) (by norm_num)
    (by norm_num [atr_or_zero, calculate_atr, histA, trueRanges, trMap, true_range, pymax,
      pyabs, trade_amount_usd, trade_size_factor, MIN_TRADE_AMOUNT, TRADE_SIZE_FACTOR, ctxA])
    (by norm_num [initState, fundingVenue])
  norm_num [fundingVenue, counterVenue, fundingPrice, counterPrice, initState, TAKER_FEE,
    stripUSDT, stripUSDTChars] at h
  exact ⟨h.2.1, h.2.2.1, h.2.2.2.1, h.2.2.2.2⟩

/-- C3 counterexample: with both venues quoting exactly 100 the engine
still executes a hedge (the `else` of line 210 runs), buying on Coinbase
and selling on MEXC, so a hedge is not executed only on price
disagreement. -/
theorem C3_counterexample :
    recsOf (processCrypto ctxEq "XTZUSDT" initState [])
      = [mkRecord "XTZUSDT" (1/20) 100 TradeType.buy Venue.coinbase,
         mkRecord "XTZUSDT" (-(1/20)) 100 TradeType.sell Venue.mexc] := by
  unfold processCrypto
  rw [processCryptoAtr_exec ctxEq "XTZUSDT" (atr_or_zero (ctxEq.history "XTZUSDT") 14)
    initState [] 100 100 rfl rfl (by norm_num) (by norm_num)
    (by norm_num [atr_or_zero, calculate_atr, trade_amount_usd, trade_size_factor,
      MIN_TRADE_AMOUNT, TRADE_SIZE_FACTOR, pymax, ctxEq, initState, fundingVenue])]
  norm_num [recsOf, fundingVenue, counterVenue, fundingPrice, counterPrice, ctxEq,
    atr_or_zero, calculate_atr, trade_amount_usd, trade_size_factor, MIN_TRADE_AMOUNT,
    TRADE_SIZE_FACTOR, pymax]

/-- C3 amended: whenever a hedge executes, the buy leg runs on the venue
quoting the strictly lower price and the sell leg on the other whenever
the two quotes differ; but at exactly equal quotes the hedge still
executes (it is not suppressed), with the buy on Coinbase and the sell on
MEXC. -/
theorem C3_amended (ctx : CycleCtx) (c : String) (s : State)
    (recs : List TradeRecord) (pM pC N : ℚ)
    (hM : ctx.pricesMexc c = some pM) (hC : ctx.pricesCoinbase c = some pC)
    (hpM : 0 < pM) (hpC : 0 < pC)
    (hN : N = trade_amount_usd (atr_or_zero (ctx.history c) 14) pM)
    (hcash : N ≤ s.usd (fundingVenue pM pC)) :
    recsOf (processCrypto ctx c s recs)
        = recs ++ [mkRecord c (N / fundingPrice pM pC) (fundingPrice pM pC)
                     TradeType.buy (fundingVenue pM pC),
                   mkRecord c (-(N / fundingPrice pM pC)) (counterPrice pM pC)
                     TradeType.sell (counterVenue pM pC)] ∧
    (pM < pC → fundingVenue pM pC = Venue.mexc ∧ counterVenue pM pC = Venue.coinbase) ∧
    (pC < pM → fundingVenue pM pC = Venue.coinbase ∧ counterVenue pM pC = Venue.mexc) ∧
    (pM = pC → fundingVenue pM pC = Venue.coinbase ∧ counterVenue pM pC = Venue.mexc) := by
  subst hN
  refine ⟨?_, ?_, ?_, ?_⟩
  · unfold processCrypto
    rw [processCryptoAtr_exec ctx c (atr_or_zero (ctx.history c) 14) s recs pM pC hM hC hpM
      hpC hcash]
    rfl
  · intro hlt
    unfold fundingVenue counterVenue
    rw [if_pos hlt, if_pos hlt]
    exact ⟨rfl, rfl⟩
  · intro hgt
    unfold fundingVenue counterVenue
    rw [if_neg (not_lt.mpr hgt.le), if_neg (not_lt.mpr hgt.le)]
    exact ⟨rfl, rfl⟩
  · intro heq
    unfold fundingVenue counterVenue
    rw [if_neg (not_lt.mpr heq.ge), if_neg (not_lt.mpr heq.ge)]
    exact ⟨rfl, rfl⟩

/-- Witness for the amended C3: MEXC quotes 110, Coinbase 100, so the buy
leg runs on Coinbase (the strictly cheaper venue) and the sell on MEXC. -/
theorem C3_witness :
    recsOf (processCrypto ctxB "XTZUSDT" initState [])
      = [mkRecord "XTZUSDT" (1/20) 100 TradeType.buy Venue.coinbase,
         mkRecord "XTZUSDT" (-(1/20)) 110 TradeType.sell Venue.mexc] ∧
    fundingVenue (110:ℚ) 100 = Venue.coinbase := by
  have h := C3_amended ctxB "XTZUSDT" initState [] 110 100 5 rfl rfl
    (by norm_num) (by norm_num)
    (by norm_num [atr_or_zero, calculate_atr, trade_amount_usd, trade_size_factor,
      MIN_TRADE_AMOUNT, TRADE_SIZE_FACTOR, pymax, ctxB])
    (by norm_num [initState, fundingVenue])
  refine ⟨?_, (h.2.2.1 (by norm_num)).1⟩
  rw [h.1]
  norm_num [fundingVenue, counterVenue, fundingPrice, counterPrice]

/-- C7: with both prices quoted and positive, a funding cash balance
strictly below the computed notional leaves the ledger and the trade log
untouched (the check of lines 212/226 precedes every mutation), while a
balance exactly equal to the notional executes the hedge — the `>=`
boundary is inclusive. -/
theorem C7_shortfall_boundary (ctx : CycleCtx) (c : String) (s : State)
    (recs : List TradeRecord) (pM pC : ℚ)
    (hM : ctx.pricesMexc c = some pM) (hC : ctx.pricesCoinbase c = some pC)
    (hpM : 0 < pM) (hpC : 0 < pC) :
    (s.usd (fundingVenue pM pC) < trade_amount_usd (atr_or_zero (ctx.history c) 14) pM →
      processCrypto ctx c s recs = .ok (s, recs)) ∧
    (s.usd (fundingVenue pM pC) = trade_amount_usd (atr_or_zero (ctx.history c) 14) pM →
      isOk (processCrypto ctx c s recs) = true ∧
      recsOf (processCrypto ctx c s recs)
        = recs ++ [mkRecord c (trade_amount_usd (atr_or_zero (ctx.history c) 14) pM /
                       fundingPrice pM pC) (fundingPrice pM pC)
                     TradeType.buy (fundingVenue pM pC),
                   mkRecord c (-(trade_amount_usd (atr_or_zero (ctx.history c) 14) pM /
                       fundingPrice pM pC)) (counterPrice pM pC)
                     TradeType.sell (counterVenue pM pC)]) := by
  constructor
  · intro hlow
    exact processCryptoAtr_shortfall ctx c (atr_or_zero (ctx.history c) 14) s recs pM pC
      hM hC hpM hpC hlow
  · intro heq
    unfold processCrypto
    rw [processCryptoAtr_exec ctx c (atr_or_zero (ctx.history c) 14) s recs pM pC hM hC hpM
      hpC heq.ge]
    exact ⟨rfl, rfl⟩

/-- Witness for C7: Coinbase is the funding venue (110 vs 100), the
notional is 5; with 4 USD of Coinbase cash nothing happens, with exactly
5 USD the hedge executes. -/
theorem C7_witness :
    processCrypto ctxB "XTZUSDT" stateLt5 [] = .ok (stateLt5, []) ∧
    isOk (processCrypto ctxB "XTZUSDT" stateEq5 []) = true := by
  constructor
  · exact (C7_shortfall_boundary ctxB "XTZUSDT" stateLt5 [] 110 100 rfl rfl
      (by norm_num) (by norm_num)).1
      (by norm_num [atr_or_zero, calculate_atr, trade_amount_usd, trade_size_factor,
        MIN_TRADE_AMOUNT, TRADE_SIZE_FACTOR, pymax, fundingVenue, stateLt5, ctxB])
  · exact ((C7_shortfall_boundary ctxB "XTZUSDT" stateEq5 [] 110 100 rfl rfl
      (by norm_num) (by norm_num)).2
      (by norm_num [atr_or_zero, calculate_atr, trade_amount_usd, trade_size_factor,
        MIN_TRADE_AMOUNT, TRADE_SIZE_FACTOR, pymax, fundingVenue, stateEq5, ctxB])).1

/-- C9: an executed hedge never touches any holding other than the
funding venue's holding of the traded asset: every counter-venue holding
(of the traded asset included) and every funding-venue holding of a
different asset is unchanged — the sell leg is cash-settled and adjusts
no holding. -/
theorem C9_frame (ctx : CycleCtx) (c : String) (s : State)
    (recs : List TradeRecord) (pM pC N : ℚ)
    (hM : ctx.pricesMexc c = some pM) (hC : ctx.pricesCoinbase c = some pC)
    (hpM : 0 < pM) (hpC : 0 < pC)
    (hN : N = trade_amount_usd (atr_or_zero (ctx.history c) 14) pM)
    (hcash : N ≤ s.usd (fundingVenue pM pC)) :
    (∀ a, (stateOf s (processCrypto ctx c s recs)).bal (counterVenue pM pC) a
        = s.bal (counterVenue pM pC) a) ∧
    (∀ a, a ≠ stripUSDT c →
      (stateOf s (processCrypto ctx c s recs)).bal (fundingVenue pM pC) a
        = s.bal (fundingVenue pM pC) a) := by
  subst hN
  unfold processCrypto
  rw [processCryptoAtr_exec ctx c (atr_or_zero (ctx.history c) 14) s recs pM pC hM hC hpM
    hpC hcash]
  have hne := fundingVenue_ne_counterVenue pM pC
  constructor
  · intro a
    simp only [stateOf, updBal]
    rw [if_neg (by intro hcontra; exact hne hcontra.1.symm)]
  · intro a ha
    simp only [stateOf, updBal]
    rw [if_neg (by intro hcontra; exact ha hcontra.2)]

/-- Witness for C9 on Scenario A: after the hedge, Coinbase holds no XTZ
and MEXC still holds no BTC. -/
theorem C9_witness :
    (stateOf initState (processCrypto ctxA "XTZUSDT" initState [])).bal Venue.coinbase "XTZ"
      = 0 ∧
    (stateOf initState (processCrypto ctxA "XTZUSDT" initState [])).bal Venue.mexc "BTC"
      = 0 := by
  have h := C9_frame ctxA "XTZUSDT" initState [] 100 110 1000 rfl rfl
    (by norm_num) (by norm_num)
    (by norm_num [atr_or_zero, calculate_atr, histA, trueRanges, trMap, true_range, pymax,
      pyabs, trade_amount_usd, trade_size_factor, MIN_TRADE_AMOUNT, TRADE_SIZE_FACTOR, ctxA])
    (by norm_num [initState, fundingVenue])
  norm_num [fundingVenue, counterVenue, initState, stripUSDT, stripUSDTChars] at h
  exact ⟨h.1 "XTZ", h.2 "BTC" (by decide)⟩

/-- C10: an executed hedge strictly increases the sum of the two USD
balances, by at least `N * TAKER_FEE`: the funding price never exceeds
the counter price, so the counter credit `(N/fundingPrice)*counterPrice`
is at least `N`, while the funding debit is only `N - N * TAKER_FEE`. -/
theorem C10_cash_sum_increases (ctx : CycleCtx) (c : String) (s : State)
    (recs : List TradeRecord) (pM pC N : ℚ)
    (hM : ctx.pricesMexc c = some pM) (hC : ctx.pricesCoinbase c = some pC)
    (hpM : 0 < pM) (hpC : 0 < pC)
    (hN : N = trade_amount_usd (atr_or_zero (ctx.history c) 14) pM)
    (hcash : N ≤ s.usd (fundingVenue pM pC)) :
    fundingPrice pM pC ≤ counterPrice pM pC ∧
    s.usd Venue.mexc + s.usd Venue.coinbase + N * TAKER_FEE
      ≤ (stateOf s (processCrypto ctx c s recs)).usd Venue.mexc
        + (stateOf s (processCrypto ctx c s recs)).usd Venue.coinbase ∧
    s.usd Venue.mexc + s.usd Venue.coinbase
      < (stateOf s (processCrypto ctx c s recs)).usd Venue.mexc
        + (stateOf s (processCrypto ctx c s recs)).usd Venue.coinbase := by
  have hNmin : MIN_TRADE_AMOUNT ≤ N := hN ▸ min_le_trade_amount _ pM
  have hN0 : 0 ≤ N := le_trans (by norm_num [MIN_TRADE_AMOUNT]) hNmin
  have hfp : 0 < fundingPrice pM pC := fundingPrice_pos pM pC hpM hpC
  have hle : fundingPrice pM pC ≤ counterPrice pM pC := fundingPrice_le_counterPrice pM pC
  have hcredit : N ≤ N / fundingPrice pM pC * counterPrice pM pC := by
    rw [div_mul_eq_mul_div, le_div_iff₀ hfp]
    exact mul_le_mul_of_nonneg_left hle hN0
  have hfeepos : 0 < N * TAKER_FEE := by
    have h5 : (0:ℚ) < N := lt_of_lt_of_le (by norm_num [MIN_TRADE_AMOUNT]) hNmin
    exact mul_pos h5 (by norm_num [TAKER_FEE])
  unfold processCrypto
  rw [processCryptoAtr_exec ctx c (atr_or_zero (ctx.history c) 14) s recs pM pC hM hC hpM
    hpC (hN ▸ hcash)]
  rw [← hN]
  refine ⟨hle, ?_, ?_⟩ <;>
    · by_cases hlt : pM < pC
      · simp [stateOf, fundingVenue, counterVenue, fundingPrice, counterPrice, hlt,
          updUsd] at hcredit ⊢
        linarith
      · simp [stateOf, fundingVenue, counterVenue, fundingPrice, counterPrice, hlt,
          updUsd] at hcredit ⊢
        linarith

/-- Witness for C10 on Scenario A: the cash sum goes from 4000 to 4101,
an increase of 101 ≥ the fee 1. -/
theorem C10_witness :
    fundingPrice (100:ℚ) 110 ≤ counterPrice (100:ℚ) 110 ∧
    initState.usd Venue.mexc + initState.usd Venue.coinbase + 1000 * TAKER_FEE
      ≤ (stateOf initState (processCrypto ctxA "XTZUSDT" initState [])).usd Venue.mexc
        + (stateOf initState (processCrypto ctxA "XTZUSDT" initState [])).usd Venue.coinbase ∧
    initState.usd Venue.mexc + initState.usd Venue.coinbase
      < (stateOf initState (processCrypto ctxA "XTZUSDT" initState [])).usd Venue.mexc
        + (stateOf initState (processCrypto ctxA "XTZUSDT" initState [])).usd Venue.coinbase :=
  C10_cash_sum_increases ctxA "XTZUSDT" initState [] 100 110 1000 rfl rfl
    (by norm_num) (by norm_num)
    (by norm_num [atr_or_zero, calculate_atr, histA, trueRanges, trMap, true_range, pymax,
      pyabs, trade_amount_usd, trade_size_factor, MIN_TRADE_AMOUNT, TRADE_SIZE_FACTOR, ctxA])
    (by norm_num [initState, fundingVenue])

/-- C8: with fewer than `period + 1 = 15` history samples the estimator
fails with the insufficient-history error, the engine's recovered
volatility is zero, the iteration behaves exactly as if the volatility
were zero, and (whenever the MEXC price is quoted and non-zero, so that
the sizing line itself does not raise) the iteration completes without
an uncaught exception. -/
theorem C8_insufficient_history_fallback (ctx : CycleCtx) (c : String) (s : State)
    (recs : List TradeRecord) (pM : ℚ)
    (hlen : (ctx.history c).length < 14 + 1)
    (hM : ctx.pricesMexc c = some pM) (hpM : pM ≠ 0) :
    calculate_atr (ctx.history c) 14 = .error AtrError.notEnoughData ∧
    processCrypto ctx c s recs = processCryptoAtr ctx c 0 s recs ∧
    isOk (processCrypto ctx c s recs) = true := by
  have h1 : calculate_atr (ctx.history c) 14 = .error AtrError.notEnoughData := by
    unfold calculate_atr
    rw [if_pos hlen]
  have h2 : atr_or_zero (ctx.history c) 14 = 0 := by
    unfold atr_or_zero
    rw [h1]
  have h3 : processCrypto ctx c s recs = processCryptoAtr ctx c 0 s recs := by
    unfold processCrypto
    rw [h2]
  refine ⟨h1, h3, ?_⟩
  rw [h3]
  simp only [processCryptoAtr, hM]
  rw [if_neg hpM, if_neg (trade_amount_not_lt_min 0 pM)]
  rcases hCx : ctx.pricesCoinbase c with _ | pC
  · simp [isOk]
  · simp only
    by_cases hpc0 : pC = 0
    · rw [if_pos hpc0]
      rfl
    · rw [if_neg hpc0]
      by_cases hlt : pM < pC
      · rw [if_pos hlt]
        split <;> rfl
      · rw [if_neg hlt]
        split <;> rfl

/-- Witness for C8: empty history, MEXC quoting 100. -/
theorem C8_witness :
    calculate_atr (ctxEq.history "XTZUSDT") 14 = .error AtrError.notEnoughData ∧
    processCrypto ctxEq "XTZUSDT" initState [] = processCryptoAtr ctxEq "XTZUSDT" 0 initState [] ∧
    isOk (processCrypto ctxEq "XTZUSDT" initState []) = true :=
  C8_insufficient_history_fallback ctxEq "XTZUSDT" initState [] 100 (by decide) rfl
    (by norm_num)

/-- C4 (failing input for the code defect): when the MEXC price fetch for
`"XTZUSDT"` returns `None`, the whole cycle aborts with the uncaught
`TypeError` of line 203 (`atr / None`), and `"DOTUSDT"`, although both of
its prices are available, is never processed — per-asset price
unavailability on the MEXC side is fatal to the entire cycle, contrary to
the spec's per-asset SKIPPED isolation (which the code only implements
for the Coinbase side, via the guard of line 209). -/
theorem C4_unavailable_price_crashes_cycle :
    trade_and_hedge ctxC4 ["XTZUSDT", "DOTUSDT"] initState []
      = Except.error PyError.typeError := by
  rfl

/-- C1: every ledger reachable from a non-negative ledger (in particular
from the initial one: 2000 USD per venue, zero holdings) through any
sequence of `trade_and_hedge` cycles whose quoted prices are all strictly
positive has non-negative cash everywhere and non-negative holdings
everywhere; moreover an iteration whose funding venue holds strictly less
cash than the notional is rejected outright — ledger and trade log are
left exactly as they were, nothing is clamped. -/
theorem C1_nonneg_invariant (inputs : List CycleInput) (s0 s1 : State)
    (h0 : NonnegState s0) (hpos : ∀ i ∈ inputs, posPricesCtx i.ctx)
    (hrun : runCycles inputs s0 = .ok s1)
    (ctx : CycleCtx) (c : String) (s : State) (recs : List TradeRecord) (pM pC : ℚ)
    (hM : ctx.pricesMexc c = some pM) (hC : ctx.pricesCoinbase c = some pC)
    (hpM : 0 < pM) (hpC : 0 < pC)
    (hlow : s.usd (fundingVenue pM pC) < trade_amount_usd (atr_or_zero (ctx.history c) 14) pM) :
    ((∀ v, 0 ≤ s1.usd v) ∧ (∀ v a, 0 ≤ s1.bal v a)) ∧
    processCrypto ctx c s recs = .ok (s, recs) :=
  ⟨runCycles_nonneg inputs s0 s1 hpos h0 hrun,
   processCryptoAtr_shortfall ctx c (atr_or_zero (ctx.history c) 14) s recs pM pC hM hC
     hpM hpC hlow⟩

/-- Witness for C1: the empty cycle sequence from the initial ledger, and
a rejected iteration (Coinbase cash 4 against notional 5). -/
theorem C1_witness :
    ((∀ v, 0 ≤ initState.usd v) ∧ (∀ v a, 0 ≤ initState.bal v a)) ∧
    processCrypto ctxB "XTZUSDT" stateLt5 [] = .ok (stateLt5, []) :=
  C1_nonneg_invariant [] initState initState
    (⟨fun v => by norm_num [initState], fun v a => by norm_num [initState]⟩)
    (by simp) rfl ctxB "XTZUSDT" stateLt5 [] 110 100 rfl rfl (by norm_num) (by norm_num)
    (by norm_num [atr_or_zero, calculate_atr, trade_amount_usd, trade_size_factor,
      MIN_TRADE_AMOUNT, TRADE_SIZE_FACTOR, pymax, fundingVenue, stateLt5, ctxB])

end Arbitrage
